import Mathlib

/-!
A shallow embedding of the execution core of the `free` language
(`src/compile.rs`, `src/env.rs`): AST node types, the scope/environment
stack, the function registry with user/foreign dispatch, the lowering and
statement-compilation engine, and the return-register protocol.

The `Value` type and its primitive operations (`copy`, `zero`, `free`,
`size`, `refer`, `deref`, `assign`, `is_ref`) are an external collaborator
of the core (they live outside `src/`); they are modelled here from the
spec's contract for them, over an explicit heap.  The process-wide mutable
state of the Rust code (the scope stack `SCOPE_STACK`, the registries
`FN_DEFS` / `FOREIGN_FN_DEFS`, the globals `STACK_PTR` and `RETURN`) is
threaded explicitly as a state record `St`; an event trace in the state
records the `zero` / `free` / `assign` calls and the brackets the core
emits to the external Control component, so that the memory-discipline
claims are observable.  Recursion through the function tables is made
total with an explicit fuel argument; running out of fuel is a fourth
outcome `Res.outOfFuel`, distinct from `ok`, from a language `Error`, and
from `Res.panic` (which models a Rust panic such as an out-of-range
`args[i]` index or an `unwrap` of an `Err`).  The Rust `Vec` scope stack
is modelled as a `List Env` with the top frame at the head.
-/

namespace Free

/-- Modelled from the spec: the contents of one storage cell of the external
Value component's heap.  `undef` is unallocated or released storage, `zeroed`
is storage whose contents were cleared by `zero`; the other constructors are
the four literal kinds of the language. -/
inductive Data where
  | undef
  | zeroed
  | str (s : String)
  | chr (c : Char)
  | byte (b : Nat)
  | u32 (n : Nat)
deriving DecidableEq

/-- Modelled from the spec: the storage footprint of a cell, used for the
stack-pointer arithmetic of frame teardown. -/
def Data.size : Data → Nat
  | .undef => 0
  | .zeroed => 0
  | .str s => s.length
  | .chr _ => 1
  | .byte _ => 1
  | .u32 _ => 4

/-- Modelled from the spec: a runtime value of the external Value component.
It is Plain-Old-Data from the core's perspective: a handle naming a storage
address, plus the `is_ref` flag.  A reference value (`is_ref = true`) denotes
the storage of its referent without owning it. -/
structure Value where
  addr : Nat
  is_ref : Bool
deriving DecidableEq

/-- A single lexical scope (`Env` in `src/env.rs`): a name-to-value mapping.
The Rust `HashMap` is modelled as an association list without duplicate
keys. -/
structure Env where
  scope : List (String × Value)
deriving DecidableEq

/-- The error type of `src/compile.rs`. -/
inductive Error where
  | CannotReferenceAReference
  | FunctionNotDefined (name : String)
  | VariableNotDefined (name : String) (env : Env)
deriving DecidableEq

/-- Observable events: the calls the core makes into the external Value
component that mutate storage (`zero`, `free`, `assign`), and the brackets
it emits to the external Control component. -/
inductive Event where
  | zero (addr : Nat)
  | free (addr : Nat)
  | assign (dst src : Nat)
  | ifBegin (addr : Nat)
  | ifEnd
  | whileBegin (addr : Nat)
  | whileEnd
deriving DecidableEq

/-- The process-wide mutable state of the Rust core: the scope stack (top
frame at the head of the list), the Value component's heap with its
allocation cursor, the global `STACK_PTR`, and the event trace. -/
structure St where
  scopeStack : List Env
  heap : Nat → Data
  next : Nat
  stackPtr : Nat
  events : List Event

/-- Pointwise heap update. -/
def hupd (h : Nat → Data) (a : Nat) (d : Data) : Nat → Data :=
  fun x => if x = a then d else h x

/-- Lookup in a string-keyed association list (the model of both the
`HashMap` scopes and the `HashMap` function registries). -/
def slookup {α : Type} : List (String × α) → String → Option α
  | [], _ => none
  | (k, v) :: rest, n => if k = n then some v else slookup rest n

/-- Insert-or-replace in a string-keyed association list, mirroring
`HashMap::insert`. -/
def tinsert {α : Type} : List (String × α) → String → α → List (String × α)
  | [], n, a => [(n, a)]
  | (k, b) :: rest, n, a =>
    if k = n then (k, a) :: rest else (k, b) :: tinsert rest n a

/-- Modelled from the spec: allocation of a fresh owned Value holding `d`.
Allocation advances the global stack pointer by the value's size. -/
def alloc (d : Data) (st : St) : Value × St :=
  (⟨st.next, false⟩,
   { st with
      heap := hupd st.heap st.next d
      next := st.next + 1
      stackPtr := st.stackPtr + d.size })

/-- Modelled from the spec: `Value::zero` clears the contents of the value's
storage without releasing it. -/
def Value.zero (v : Value) (st : St) : St :=
  { st with
      heap := hupd st.heap v.addr .zeroed
      events := st.events ++ [.zero v.addr] }

/-- Modelled from the spec: `Value::free` releases the value's storage. -/
def Value.free (v : Value) (st : St) : St :=
  { st with
      heap := hupd st.heap v.addr .undef
      events := st.events ++ [.free v.addr] }

/-- Modelled from the spec: `Value::size`, the storage footprint. -/
def Value.size (v : Value) (st : St) : Nat :=
  (st.heap v.addr).size

/-- Modelled from the spec: `Value::copy` duplicates a value into
independently-owned fresh storage.  Copying a reference duplicates the
reference itself (the aliasing, not the referent's storage ownership). -/
def Value.copy (v : Value) (st : St) : Value × St :=
  if v.is_ref then (v, st) else alloc (st.heap v.addr) st

/-- Modelled from the spec: `Value::refer` produces a reference to this
value's storage; it fails if the value is itself already a reference
(references are not nestable). -/
def Value.refer (v : Value) : Except Error Value :=
  if v.is_ref then .error .CannotReferenceAReference else .ok ⟨v.addr, true⟩

/-- Modelled from the spec: `Value::deref` reads through a reference. -/
def Value.deref (v : Value) : Value :=
  ⟨v.addr, false⟩

/-- Modelled from the spec: `Value::assign` overwrites the target's storage
contents from the source value. -/
def Value.assign (target src : Value) (st : St) : St :=
  { st with
      heap := hupd st.heap target.addr (st.heap src.addr)
      events := st.events ++ [.assign target.addr src.addr] }

/-- The process-wide return register `RETURN`: a fixed value handle whose
storage is cell 0 of the heap (well-formed states allocate from `next ≥ 1`
so that ordinary values never collide with it). -/
def RETURN : Value :=
  ⟨0, false⟩

/-- `Env::new`. -/
def Env.new : Env :=
  ⟨[]⟩

/-- `Env::get`: scope lookup; failure carries the attempted name and a
snapshot of the environment. -/
def Env.get (env : Env) (name : String) : Except Error Value :=
  match slookup env.scope name with
  | some v => .ok v
  | none => .error (.VariableNotDefined name env)

/-- `Env::define`: if the name already holds a value, zero the previous
value first; then insert a copy of the given value. -/
def Env.define (env : Env) (name : String) (v : Value) (st : St) : Env × St :=
  let st1 := match Env.get env name with
    | .ok prev => Value.zero prev st
    | .error _ => st
  let (v1, st2) := Value.copy v st1
  (⟨tinsert env.scope name v1⟩, st2)

/-- `Env::define_no_cp`: like `define` but the value itself is moved into
the scope without copying. -/
def Env.define_no_cp (env : Env) (name : String) (v : Value) (st : St) : Env × St :=
  let st1 := match Env.get env name with
    | .ok prev => Value.zero prev st
    | .error _ => st
  (⟨tinsert env.scope name v⟩, st1)

/-- The iteration of `Env::free` over the scope's values: non-reference
values are freed, reference values are skipped. -/
def freeScope : List (String × Value) → St → St
  | [], st => st
  | (_, v) :: rest, st => freeScope rest (if v.is_ref then st else Value.free v st)

/-- `Env::free`: release every non-reference value owned by the scope. -/
def Env.free (env : Env) (st : St) : St :=
  freeScope env.scope st

/-- Compile-wide flags of a `Program` (carried, not interpreted). -/
inductive Flag where
  | DisablePtrs
  | EnableSizeWarn
deriving DecidableEq

/-- The literal kinds (`Literal` in `src/compile.rs`). -/
inductive Literal where
  | string (s : String)
  | character (c : Char)
  | byte_int (b : Nat)
  | unsigned_4byte_int (n : Nat)
deriving DecidableEq

/-- The expression nodes (`Eval` in `src/compile.rs`).  The wrapper structs
`Load`, `Call`, `Deref`, `Refer` are inlined into the constructors. -/
inductive Eval where
  | load (name : String)
  | literal (l : Literal)
  | call (name : String) (args : List Eval)
  | deref (e : Eval)
  | refer (e : Eval)
  | value (v : Value)

/-- The statement nodes (`Expr` in `src/compile.rs`).  The wrapper structs
`If`, `While`, `Define`, `Assign`, `Return` are inlined. -/
inductive Expr where
  | ifStmt (cond : Eval) (then_ : List Expr) (otherwise : List Expr)
  | whileStmt (cond : Eval) (body : List Expr)
  | eval (e : Eval)
  | define (name : String) (value : Eval)
  | assign (lhs : Eval) (rhs : Eval)
  | ret (e : Eval)

/-- A user-defined function (`UserFn`). -/
structure UserFn where
  name : String
  parameters : List String
  body : List Expr

/-- A foreign function (`ForeignFn`): a parameter-name list and a native
callable.  The native callable is modelled as an arbitrary transformer of
the interpreter state that either succeeds or returns a language error,
matching the Rust signature `fn() -> Result<(), Error>` acting on the
process-wide state. -/
structure ForeignFn where
  parameters : List String
  body : St → Except Error Unit × St

/-- The two process-wide function registries (`FN_DEFS` and
`FOREIGN_FN_DEFS`).  They are immutable during execution, so they are a
fixed context rather than part of the threaded state. -/
structure Ctx where
  fn_defs : List (String × UserFn)
  foreign_fn_defs : List (String × ForeignFn)

/-- A program: flags plus user-function list (`Program`). -/
structure Program where
  flags : List Flag
  funs : List UserFn

/-- `Program::compile`: register every function (`UserFn::compile`), no code
runs. -/
def Program.compile (p : Program) (c : Ctx) : Ctx :=
  { c with fn_defs := p.funs.foldl (fun t f => tinsert t f.name f) c.fn_defs }

/-- `deforfun` / `ForeignFn::define`: register a foreign function. -/
def deforfun (name : String) (g : ForeignFn) (c : Ctx) : Ctx :=
  { c with foreign_fn_defs := tinsert c.foreign_fn_defs name g }

/-- The outcome of one interpreter step: success, a language `Error`, a
Rust panic (out-of-range indexing, `unwrap` of an `Err`, popping an empty
stack), or fuel exhaustion (an artifact of the embedding, distinct from all
behaviours of the Rust code). -/
inductive Res (α : Type) where
  | ok (a : α)
  | error (e : Error)
  | panic
  | outOfFuel
deriving DecidableEq

/-- Sequencing of fallible state transformers: errors, panics and fuel
exhaustion short-circuit, carrying the state at which they occurred. -/
def bindRes {α β : Type} : Res α × St → (α → St → Res β × St) → Res β × St
  | (.ok a, st), f => f a st
  | (.error e, st), _ => (.error e, st)
  | (.panic, st), _ => (.panic, st)
  | (.outOfFuel, st), _ => (.outOfFuel, st)

/-- The global `get`: resolve a name in the top scope of the scope stack
(`last_mut().unwrap()` panics on an empty stack). -/
def getG (st : St) (name : String) : Res Value × St :=
  match st.scopeStack with
  | [] => (.panic, st)
  | top :: _ =>
    match Env.get top name with
    | .ok v => (.ok v, st)
    | .error e => (.error e, st)

/-- `set_return`: zero the return register's prior contents, then assign the
new value into it. -/
def set_return (v : Value) (st : St) : St :=
  Value.assign RETURN v (Value.zero RETURN st)

/-- The storage contents a literal materializes. -/
def Literal.data : Literal → Data
  | .string s => .str s
  | .character c => .chr c
  | .byte_int b => .byte b
  | .unsigned_4byte_int n => .u32 n

/-- The synthetic-name prefix of a literal's temporary. -/
def Literal.tempName (l : Literal) (sp : Nat) : String :=
  match l with
  | .string _ => "%TEMP_STR_LITERAL" ++ toString sp ++ "%"
  | .character _ => "%TEMP_CHAR_LITERAL" ++ toString sp ++ "%"
  | .byte_int _ => "%TEMP_BYTE_LITERAL" ++ toString sp ++ "%"
  | .unsigned_4byte_int _ => "%TEMP_U32_LITERAL" ++ toString sp ++ "%"

mutual

/-- `Lower::lower` for `Eval` nodes, dispatching to the per-variant
implementations exactly as `impl Lower for Eval` does. -/
def lowerEval (c : Ctx) (e : Eval) (st : St) (fuel : Nat) : Res Value × St :=
  match fuel with
  | 0 => (.outOfFuel, st)
  | n + 1 =>
    match e with
    | .load name => getG st name
    | .literal l => lowerLiteral c l st n
    | .call name args =>
      bindRes (call c name args st n) (fun _ st1 => getReturn c st1 n)
    | .deref e1 =>
      bindRes (lowerEval c e1 st n) (fun v st1 => (.ok (Value.deref v), st1))
    | .refer e1 =>
      bindRes (lowerEval c e1 st n) (fun v st1 =>
        match Value.refer v with
        | .ok w => (.ok w, st1)
        | .error err => (.error err, st1))
    | .value v => (.ok v, st)

/-- `Lower::lower` for `Literal`: materialize a fresh value, move it into a
depth-scoped synthetic temporary with the global `define_no_cp` (whose
`Result` the Rust code `unwrap`s: an error there is a panic), then re-load
it. -/
def lowerLiteral (c : Ctx) (l : Literal) (st : St) (fuel : Nat) : Res Value × St :=
  match fuel with
  | 0 => (.outOfFuel, st)
  | n + 1 =>
    let name := l.tempName st.stackPtr
    let (v, st1) := alloc l.data st
    match defineNoCpG c name (.value v) st1 n with
    | (.ok _, st2) => getG st2 name
    | (.error _, st2) => (.panic, st2)
    | (.panic, st2) => (.panic, st2)
    | (.outOfFuel, st2) => (.outOfFuel, st2)

/-- `get_return`: wrap the return register's current value in
`Eval::Value`, bind it (by copy, via the global `define`) under the
depth-scoped name `%TEMP_RETURN<STACK_PTR>%` in the top scope, and re-load
it. -/
def getReturn (c : Ctx) (st : St) (fuel : Nat) : Res Value × St :=
  match fuel with
  | 0 => (.outOfFuel, st)
  | n + 1 =>
    let name := "%TEMP_RETURN" ++ toString st.stackPtr ++ "%"
    bindRes (defineG c name (.value RETURN) st n) (fun _ st1 => getG st1 name)

/-- The global `define` helper: `Define("%TEMP_DEFINE%", val).compile()`
followed by `Define(name, Load("%TEMP_DEFINE%")).compile()`. -/
def defineG (c : Ctx) (name : String) (val : Eval) (st : St) (fuel : Nat) : Res Unit × St :=
  match fuel with
  | 0 => (.outOfFuel, st)
  | n + 1 =>
    bindRes (compileDefine c "%TEMP_DEFINE%" val st n) (fun _ st1 =>
      compileDefine c name (.load "%TEMP_DEFINE%") st1 n)

/-- The global `define_no_cp` helper: capture the top scope (panic when the
stack is empty), lower the value, move it into `%TEMP_DEFINE%` without
copying, re-read it, and move that into the final name, all in the top
scope. -/
def defineNoCpG (c : Ctx) (finalName : String) (value : Eval) (st : St) (fuel : Nat) :
    Res Unit × St :=
  match fuel with
  | 0 => (.outOfFuel, st)
  | n + 1 =>
    match st.scopeStack with
    | [] => (.panic, st)
    | _ :: _ =>
      bindRes (lowerEval c value st n) (fun val st1 =>
        match st1.scopeStack with
        | [] => (.panic, st1)
        | top :: rest =>
          let p1 := Env.define_no_cp top "%TEMP_DEFINE%" val st1
          let st3 : St := { p1.2 with scopeStack := p1.1 :: rest }
          match Env.get p1.1 "%TEMP_DEFINE%" with
          | .error err => (.error err, st3)
          | .ok v2 =>
            let p2 := Env.define_no_cp p1.1 finalName v2 st3
            (.ok (), { p2.2 with scopeStack := p2.1 :: rest }))

/-- The call dispatcher `call(name, args)`: look the name up first in the
user-function table, else the foreign-function table; fail with
`FunctionNotDefined(name)` when absent from both. -/
def call (c : Ctx) (name : String) (args : List Eval) (st : St) (fuel : Nat) : Res Unit × St :=
  match fuel with
  | 0 => (.outOfFuel, st)
  | n + 1 =>
    match slookup c.fn_defs name with
    | some f => UserFn.call c f args st n
    | none =>
      match slookup c.foreign_fn_defs name with
      | some g => ForeignFn.call c g args st n
      | none => (.error (.FunctionNotDefined name), st)

/-- `UserFn::call`: snapshot the stack pointer, bind parameters to lowered
arguments by copy in a fresh environment, push it, compile each body
statement in order (an error propagates immediately, skipping the
teardown), then pop and free the frame and restore the stack pointer to the
snapshot plus the return register's size. -/
def UserFn.call (c : Ctx) (f : UserFn) (args : List Eval) (st : St) (fuel : Nat) :
    Res Unit × St :=
  match fuel with
  | 0 => (.outOfFuel, st)
  | n + 1 =>
    let stack_frame := st.stackPtr
    bindRes (bindParams c f.parameters args Env.new st n) (fun env st1 =>
      let st2 : St := { st1 with scopeStack := env :: st1.scopeStack }
      bindRes (compileSeq c f.body st2 n) (fun _ st3 =>
        match st3.scopeStack with
        | [] => (.panic, st3)
        | top :: rest =>
          let st4 := Env.free top { st3 with scopeStack := rest }
          (.ok (), { st4 with stackPtr := stack_frame + Value.size RETURN st4 })))

/-- `ForeignFn::call`: identical frame protocol to `UserFn::call`, with the
native callable as the body (its error also propagates before the
teardown). -/
def ForeignFn.call (c : Ctx) (g : ForeignFn) (args : List Eval) (st : St) (fuel : Nat) :
    Res Unit × St :=
  match fuel with
  | 0 => (.outOfFuel, st)
  | n + 1 =>
    let stack_frame := st.stackPtr
    bindRes (bindParams c g.parameters args Env.new st n) (fun env st1 =>
      let st2 : St := { st1 with scopeStack := env :: st1.scopeStack }
      match g.body st2 with
      | (.error e, st3) => (.error e, st3)
      | (.ok _, st3) =>
        match st3.scopeStack with
        | [] => (.panic, st3)
        | top :: rest =>
          let st4 := Env.free top { st3 with scopeStack := rest }
          (.ok (), { st4 with stackPtr := stack_frame + Value.size RETURN st4 }))

/-- The parameter-binding loop of both call paths:
`for (i, p) in parameters.iter().enumerate() { env.define(p, args[i].lower()?) }`.
Indexing `args[i]` out of range is a Rust panic; surplus arguments are
ignored. -/
def bindParams (c : Ctx) (params : List String) (args : List Eval) (env : Env) (st : St)
    (fuel : Nat) : Res Env × St :=
  match fuel with
  | 0 => (.outOfFuel, st)
  | n + 1 =>
    match params with
    | [] => (.ok env, st)
    | p :: ps =>
      match args with
      | [] => (.panic, st)
      | a :: rest =>
        bindRes (lowerEval c a st n) (fun v st1 =>
          let p1 := Env.define env p v st1
          bindParams c ps rest p1.1 p1.2 n)

/-- `Compile::compile` for `Expr` statements, dispatching per variant
exactly as `impl Compile for Expr` does (with the bodies of the wrapper
structs' `compile` impls inlined). -/
def compileExpr (c : Ctx) (ex : Expr) (st : St) (fuel : Nat) : Res Unit × St :=
  match fuel with
  | 0 => (.outOfFuel, st)
  | n + 1 =>
    match ex with
    | .ifStmt cond then_ _otherwise =>
      bindRes (lowerEval c cond st n) (fun v st1 =>
        let st2 : St := { st1 with events := st1.events ++ [.ifBegin v.addr] }
        bindRes (compileSeq c then_ st2 n) (fun _ st3 =>
          (.ok (), { st3 with events := st3.events ++ [.ifEnd] })))
    | .whileStmt cond body =>
      bindRes (lowerEval c cond st n) (fun v st1 =>
        let st2 : St := { st1 with events := st1.events ++ [.whileBegin v.addr] }
        bindRes (compileSeq c body st2 n) (fun _ st3 =>
          (.ok (), { st3 with events := st3.events ++ [.whileEnd] })))
    | .eval e => bindRes (lowerEval c e st n) (fun _ st1 => (.ok (), st1))
    | .define name value => compileDefine c name value st n
    | .assign lhs rhs =>
      bindRes (lowerEval c lhs st n) (fun lv st1 =>
        bindRes (lowerEval c rhs st1 n) (fun rv st2 =>
          (.ok (), Value.assign lv rv st2)))
    | .ret e => bindRes (lowerEval c e st n) (fun v st1 => (.ok (), set_return v st1))

/-- `Define::compile`: capture the top scope (panic when the stack is
empty), lower the value expression (an error propagates before anything is
written), then `Env::define` the result under the name in that scope. -/
def compileDefine (c : Ctx) (name : String) (value : Eval) (st : St) (fuel : Nat) :
    Res Unit × St :=
  match fuel with
  | 0 => (.outOfFuel, st)
  | n + 1 =>
    match st.scopeStack with
    | [] => (.panic, st)
    | _ :: _ =>
      bindRes (lowerEval c value st n) (fun v st1 =>
        match st1.scopeStack with
        | [] => (.panic, st1)
        | top :: rest =>
          let p1 := Env.define top name v st1
          (.ok (), { p1.2 with scopeStack := p1.1 :: rest }))

/-- Compilation of a statement sequence in source order (the `for` loops
over bodies and branches); the first error aborts the rest. -/
def compileSeq (c : Ctx) (es : List Expr) (st : St) (fuel : Nat) : Res Unit × St :=
  match fuel with
  | 0 => (.outOfFuel, st)
  | n + 1 =>
    match es with
    | [] => (.ok (), st)
    | e :: rest => bindRes (compileExpr c e st n) (fun _ st1 => compileSeq c rest st1 n)

end

/-- An initial interpreter state for concrete executions: one (global)
scope, an unallocated heap, allocation cursor and stack pointer past the
return register's cell. -/
def st0 : St :=
  ⟨[Env.new], fun _ => Data.undef, 1, 1, []⟩

/-- A larger concrete state, with a few addresses below the allocation
cursor available to stand for caller-owned storage. -/
def stW : St :=
  ⟨[Env.new], fun _ => Data.undef, 5, 5, []⟩

/-- An empty function registry. -/
def c0 : Ctx :=
  ⟨[], []⟩

/-- The event trace of `freeScope`: one `free` per non-reference value of
the scope, in scope order; reference values contribute nothing. -/
theorem freeScope_events (l : List (String × Value)) (st : St) :
    (freeScope l st).events =
      st.events ++ (l.filter (fun p => !p.2.is_ref)).map (fun p => Event.free p.2.addr) := by
  induction l generalizing st with
  | nil => simp [freeScope]
  | cons hd tl ih =>
    obtain ⟨k, v⟩ := hd
    by_cases h : v.is_ref
    · simp [freeScope, h, ih]
    · simp [freeScope, h, ih, Value.free]

/-- C6: `Env::free` calls `free` on exactly those values in the scope whose
`is_ref` is false; reference-valued bindings are skipped and not freed. -/
theorem env_free_frees_exactly_nonrefs (env : Env) (st : St) :
    (Env.free env st).events =
      st.events ++ (env.scope.filter (fun p => !p.2.is_ref)).map (fun p => Event.free p.2.addr) :=
  freeScope_events env.scope st

/-- C5: for every environment, defining a name (by `define` or by
`define_no_cp`) when the name already holds a value first zeroes the
previous value (the sole storage-mutation event either insertion emits);
defining a fresh name zeroes nothing. -/
theorem define_zeroes_previous_binding (env : Env) (name : String) (v : Value) (st : St) :
    (∀ prev, slookup env.scope name = some prev →
       (Env.define env name v st).2.events = st.events ++ [Event.zero prev.addr] ∧
       (Env.define_no_cp env name v st).2.events = st.events ++ [Event.zero prev.addr]) ∧
    (slookup env.scope name = none →
       (Env.define env name v st).2.events = st.events ∧
       (Env.define_no_cp env name v st).2.events = st.events) := by
  constructor
  · intro prev hprev
    by_cases h : v.is_ref <;>
      simp [Env.define, Env.define_no_cp, Env.get, hprev, Value.zero, Value.copy, alloc, h]
  · intro hnone
    by_cases h : v.is_ref <;>
      simp [Env.define, Env.define_no_cp, Env.get, hnone, Value.zero, Value.copy, alloc, h]

/-- Witness for C5 at a concrete environment: rebinding `x` zeroes the
previous value's storage cell 3; defining the fresh name `y` emits no
event. -/
theorem define_zeroes_previous_binding_witness :
    (Env.define ⟨[("x", ⟨3, false⟩)]⟩ "x" ⟨4, false⟩ st0).2.events = [Event.zero 3] ∧
    (Env.define ⟨[("x", ⟨3, false⟩)]⟩ "y" ⟨4, false⟩ st0).2.events = [] :=
  ⟨((define_zeroes_previous_binding ⟨[("x", ⟨3, false⟩)]⟩ "x" ⟨4, false⟩ st0).1
      ⟨3, false⟩ rfl).1,
   ((define_zeroes_previous_binding ⟨[("x", ⟨3, false⟩)]⟩ "y" ⟨4, false⟩ st0).2 rfl).1⟩

/-- C9: dispatching a call whose argument list is shorter than the callee's
parameter list performs an out-of-range index into the argument list — a
panic, not an arity-mismatch `Error` — on both the user-function path and
the foreign-function path. -/
theorem call_short_args_panics :
    (call ⟨[("g", ⟨"g", ["a", "b"], []⟩)], []⟩ "g" [.value ⟨1, false⟩] st0 10).1 = .panic ∧
    (call ⟨[], [("h", ⟨["a"], fun st => (.ok (), st)⟩)]⟩ "h" [] st0 10).1 = .panic := by
  constructor <;> rfl

/-- C1: evaluation of the code at a failing input.  The user function `f`
has an empty parameter list and a body whose single statement fails
(loading the undefined variable `x`).  The call propagates the error, but
the frame pushed for `f` is NOT popped — the scope-stack depth after the
failed call is one more than before it — and no `free` (nor any other)
event was emitted, so the frame's bindings were not freed.  The same
happens on the foreign path when the native callable fails. -/
theorem call_error_skips_frame_teardown :
    (call ⟨[("f", ⟨"f", [], [.eval (.load "x")]⟩)], []⟩ "f" [] st0 10).1 =
        .error (.VariableNotDefined "x" ⟨[]⟩) ∧
    (call ⟨[("f", ⟨"f", [], [.eval (.load "x")]⟩)], []⟩ "f" [] st0 10).2.scopeStack.length =
        st0.scopeStack.length + 1 ∧
    (call ⟨[("f", ⟨"f", [], [.eval (.load "x")]⟩)], []⟩ "f" [] st0 10).2.events = [] ∧
    (call ⟨[], [("ff", ⟨[], fun st => (.error .CannotReferenceAReference, st)⟩)]⟩
        "ff" [] st0 10).1 = .error .CannotReferenceAReference ∧
    (call ⟨[], [("ff", ⟨[], fun st => (.error .CannotReferenceAReference, st)⟩)]⟩
        "ff" [] st0 10).2.scopeStack.length = st0.scopeStack.length + 1 := by
  refine ⟨rfl, by decide, rfl, rfl, by decide⟩

/-- C7: if the inner expression lowers successfully to a value that is
already a reference, lowering `Refer` of it fails with
`CannotReferenceAReference`; and `Refer(Refer(x))` fails with that error
for every `x` that lowers successfully, whatever value it produced. -/
theorem refer_of_reference_fails (c : Ctx) (x : Eval) (v : Value) (st st' : St) (n : Nat)
    (h : lowerEval c x st n = (.ok v, st')) :
    (v.is_ref = true →
       lowerEval c (.refer x) st (n + 1) = (.error .CannotReferenceAReference, st')) ∧
    lowerEval c (.refer (.refer x)) st (n + 2) = (.error .CannotReferenceAReference, st') := by
  constructor
  · intro hr
    simp [lowerEval, h, bindRes, Value.refer, hr]
  · by_cases hr : v.is_ref <;>
      simp [lowerEval, h, bindRes, Value.refer, hr]

/-- Witness for C7: taking a reference to the reference-typed value at
cell 2 fails, and a doubly-nested `Refer` fails, both with the
reference-of-reference error. -/
theorem refer_of_reference_fails_witness :
    lowerEval c0 (.refer (.value ⟨2, true⟩)) st0 2 =
        (.error .CannotReferenceAReference, st0) ∧
    lowerEval c0 (.refer (.refer (.value ⟨2, true⟩))) st0 3 =
        (.error .CannotReferenceAReference, st0) :=
  ⟨(refer_of_reference_fails c0 (.value ⟨2, true⟩) ⟨2, true⟩ st0 st0 1 rfl).1 rfl,
   (refer_of_reference_fails c0 (.value ⟨2, true⟩) ⟨2, true⟩ st0 st0 1 rfl).2⟩

/-- C4: compiling `Return(expr)` hands the lowered value to `set_return`,
which first zeroes the return register's prior contents and then assigns
the new value into it: the emitted events are the zero of the register
followed by the assign, and the register's cell afterwards holds the
source value's contents (read after the zero; identical to the source's
prior contents whenever the source is not the register itself). -/
theorem return_compile_zeroes_then_assigns (c : Ctx) (e : Eval) (v : Value) (st st' : St)
    (n : Nat) (h : lowerEval c e st n = (.ok v, st')) :
    compileExpr c (.ret e) st (n + 1) = (.ok (), set_return v st') ∧
    (set_return v st').events =
        st'.events ++ [Event.zero RETURN.addr, Event.assign RETURN.addr v.addr] ∧
    (set_return v st').heap RETURN.addr = (Value.zero RETURN st').heap v.addr ∧
    (v.addr ≠ RETURN.addr → (set_return v st').heap RETURN.addr = st'.heap v.addr) := by
  refine ⟨by simp [compileExpr, h, bindRes], ?_, ?_, ?_⟩
  · simp [set_return, Value.assign, Value.zero, RETURN]
  · simp [set_return, Value.assign, Value.zero, RETURN, hupd]
  · intro hne
    have hne0 : v.addr ≠ 0 := by simpa [RETURN] using hne
    simp [set_return, Value.assign, Value.zero, RETURN, hupd, hne0]

/-- Witness for C4: returning the value at cell 3 zeroes the register's
cell 0 and assigns cell 3's contents into it. -/
theorem return_compile_zeroes_then_assigns_witness :
    compileExpr c0 (.ret (.value ⟨3, false⟩)) st0 2 =
        (.ok (), set_return ⟨3, false⟩ st0) ∧
    (set_return ⟨3, false⟩ st0).events = [Event.zero 0, Event.assign 0 3] ∧
    (set_return ⟨3, false⟩ st0).heap 0 = st0.heap 3 := by
  have h := return_compile_zeroes_then_assigns c0 (.value ⟨3, false⟩) ⟨3, false⟩ st0 st0 1 rfl
  exact ⟨h.1, by simpa [st0] using h.2.1, h.2.2.2 (by decide)⟩

/-- C10: when lowering the value expression of `Define(name, expr)` fails,
`Define::compile` propagates that error with the lowering's resulting
state untouched — in particular the define itself wrote nothing, so the
top scope (and with it the binding of `name`) is exactly as the failed
lowering left it. -/
theorem define_error_leaves_binding (c : Ctx) (name : String) (value : Eval) (e : Error)
    (st st' : St) (n : Nat) (hne : st.scopeStack ≠ [])
    (h : lowerEval c value st n = (.error e, st')) :
    compileExpr c (.define name value) st (n + 2) = (.error e, st') ∧
    (compileExpr c (.define name value) st (n + 2)).2.scopeStack = st'.scopeStack := by
  obtain ⟨top, rest, hstack⟩ : ∃ top rest, st.scopeStack = top :: rest := by
    cases hs : st.scopeStack with
    | nil => exact absurd hs hne
    | cons a l => exact ⟨a, l, rfl⟩
  have h1 : compileExpr c (.define name value) st (n + 2) = (.error e, st') := by
    simp [compileExpr, compileDefine, hstack, h, bindRes]
  exact ⟨h1, by simp [h1]⟩

/-- Witness for C10: defining `y` from the undefined variable `nope` fails
with the lookup error and leaves the state exactly as the failed lowering
produced it. -/
theorem define_error_leaves_binding_witness :
    compileExpr c0 (.define "y" (.load "nope")) st0 3 =
        (.error (.VariableNotDefined "nope" ⟨[]⟩), st0) :=
  (define_error_leaves_binding c0 "y" (.load "nope") (.VariableNotDefined "nope" ⟨[]⟩)
      st0 st0 1 (by simp [st0]) rfl).1

/-- C8: compiling `If(cond, then, otherwise)` never compiles (or in any way
depends on) the `otherwise` branch — the result is identical for any two
`otherwise` sequences — and on the success path of the condition it
brackets the in-order compilation of the `then` statements between the
Control component's `if_begin` and `if_end`. -/
theorem if_compile_ignores_otherwise :
    (∀ (c : Ctx) (cond : Eval) (t o1 o2 : List Expr) (st : St) (n : Nat),
       compileExpr c (.ifStmt cond t o1) st n = compileExpr c (.ifStmt cond t o2) st n) ∧
    (∀ (c : Ctx) (cond : Eval) (t o : List Expr) (st st' : St) (v : Value) (n : Nat),
       lowerEval c cond st n = (.ok v, st') →
       compileExpr c (.ifStmt cond t o) st (n + 1) =
         bindRes (compileSeq c t { st' with events := st'.events ++ [Event.ifBegin v.addr] } n)
           (fun _ st3 => (.ok (), { st3 with events := st3.events ++ [Event.ifEnd] }))) := by
  constructor
  · intro c cond t o1 o2 st n
    cases n with
    | zero => rfl
    | succ m => simp [compileExpr]
  · intro c cond t o st st' v n h
    simp [compileExpr, h, bindRes]

/-- Witness for C8: with a condition lowering to the value at cell 2, an
`If` with a failing `otherwise` branch compiles identically to one with an
empty `otherwise`, emitting exactly the `if_begin`/`if_end` bracket. -/
theorem if_compile_ignores_otherwise_witness :
    compileExpr c0 (.ifStmt (.value ⟨2, false⟩) [] [.eval (.load "boom")]) st0 5 =
        compileExpr c0 (.ifStmt (.value ⟨2, false⟩) [] []) st0 5 ∧
    compileExpr c0 (.ifStmt (.value ⟨2, false⟩) [] [.eval (.load "boom")]) st0 2 =
        bindRes (compileSeq c0 [] { st0 with events := st0.events ++ [Event.ifBegin 2] } 1)
          (fun _ st3 => (.ok (), { st3 with events := st3.events ++ [Event.ifEnd] })) :=
  ⟨if_compile_ignores_otherwise.1 c0 (.value ⟨2, false⟩) [] [.eval (.load "boom")] [] st0 5,
   if_compile_ignores_otherwise.2 c0 (.value ⟨2, false⟩) [] [.eval (.load "boom")] st0 st0
     ⟨2, false⟩ 1 rfl⟩

/-- C3: `call(name, args)` resolves the name in the user-function table
first (a user definition shadows a foreign one of the same name), falls
back to the foreign-function table, and the dispatcher itself fails with
`FunctionNotDefined(name)` — uniformly, whatever the arguments, state and
(positive) fuel — exactly when the name is absent from both tables. -/
theorem call_dispatch_order (c : Ctx) (name : String) :
    (∀ f, slookup c.fn_defs name = some f →
       ∀ (args : List Eval) (st : St) (n : Nat),
         call c name args st (n + 1) = UserFn.call c f args st n) ∧
    (slookup c.fn_defs name = none →
       ∀ g, slookup c.foreign_fn_defs name = some g →
         ∀ (args : List Eval) (st : St) (n : Nat),
           call c name args st (n + 1) = ForeignFn.call c g args st n) ∧
    ((slookup c.fn_defs name = none ∧ slookup c.foreign_fn_defs name = none) ↔
       (∀ (args : List Eval) (st : St) (n : Nat),
         call c name args st (n + 1) = (.error (.FunctionNotDefined name), st))) := by
  refine ⟨?_, ?_, ?_, ?_⟩
  · intro f hf args st n
    simp [call, hf]
  · intro h0 g hg args st n
    simp [call, h0, hg]
  · rintro ⟨h1, h2⟩ args st n
    simp [call, h1, h2]
  · intro hall
    cases h1 : slookup c.fn_defs name with
    | some f =>
      have hc := hall [] st0 0
      rw [show call c name [] st0 1 = UserFn.call c f [] st0 0 from by simp [call, h1]] at hc
      simp [UserFn.call, Prod.mk.injEq] at hc
    | none =>
      cases h2 : slookup c.foreign_fn_defs name with
      | some g =>
        have hc := hall [] st0 0
        rw [show call c name [] st0 1 = ForeignFn.call c g [] st0 0 from by
              simp [call, h1, h2]] at hc
        simp [ForeignFn.call, Prod.mk.injEq] at hc
      | none => exact ⟨rfl, rfl⟩

/-- Witness for C3: a name registered in both tables dispatches to the user
definition, and an unregistered name fails with `FunctionNotDefined`. -/
theorem call_dispatch_order_witness :
    call ⟨[("f", ⟨"f", [], []⟩)], [("f", ⟨[], fun st => (.ok (), st)⟩)]⟩ "f" [] st0 1 =
        UserFn.call ⟨[("f", ⟨"f", [], []⟩)], [("f", ⟨[], fun st => (.ok (), st)⟩)]⟩
          ⟨"f", [], []⟩ [] st0 0 ∧
    call c0 "missing" [] st0 1 = (.error (.FunctionNotDefined "missing"), st0) :=
  ⟨(call_dispatch_order ⟨[("f", ⟨"f", [], []⟩)], [("f", ⟨[], fun st => (.ok (), st)⟩)]⟩
      "f").1 ⟨"f", [], []⟩ rfl [] st0 0,
   ((call_dispatch_order c0 "missing").2.2.mp ⟨rfl, rfl⟩) [] st0 0⟩

/-- C2: parameters are bound by copy.  Calling a function whose single
parameter `p` is mutated in the body by `Assign(Load p, Value u)` with a
non-reference argument value `a` succeeds, the mutation (and the frame
teardown's free) lands on the fresh copy allocated at the cursor `st.next`
— not on the caller's storage `a.addr` — and the caller's argument storage
is unchanged after the call returns; the scope stack is also restored. -/
theorem params_bound_by_copy (fname p : String) (a u : Value) (st : St)
    (ha : a.is_ref = false) (hlt : a.addr < st.next) :
    (call ⟨[(fname, ⟨fname, [p], [.assign (.load p) (.value u)]⟩)], []⟩ fname
        [.value a] st 10).1 = .ok () ∧
    (call ⟨[(fname, ⟨fname, [p], [.assign (.load p) (.value u)]⟩)], []⟩ fname
        [.value a] st 10).2.heap a.addr = st.heap a.addr ∧
    (call ⟨[(fname, ⟨fname, [p], [.assign (.load p) (.value u)]⟩)], []⟩ fname
        [.value a] st 10).2.events =
      st.events ++ [Event.assign st.next u.addr, Event.free st.next] ∧
    (call ⟨[(fname, ⟨fname, [p], [.assign (.load p) (.value u)]⟩)], []⟩ fname
        [.value a] st 10).2.scopeStack = st.scopeStack := by
  have hne : a.addr ≠ st.next := Nat.ne_of_lt hlt
  refine ⟨?_, ?_, ?_, ?_⟩ <;>
    simp [call, UserFn.call, bindParams, lowerEval, compileSeq, compileExpr, Env.define,
          Env.get, Env.free, freeScope, slookup, tinsert, Value.copy, alloc, Value.assign,
          Value.free, Value.zero, getG, bindRes, ha, hupd, Env.new, RETURN, Value.size, hne]

/-- Witness for C2: with caller storage at cell 3 (cursor at 5), the callee
mutates its parameter, the mutation and free land on the fresh copy at
cell 5, and cell 3 is untouched. -/
theorem params_bound_by_copy_witness :
    (call ⟨[("f", ⟨"f", ["p"], [.assign (.load "p") (.value ⟨4, false⟩)]⟩)], []⟩ "f"
        [.value ⟨3, false⟩] stW 10).1 = .ok () ∧
    (call ⟨[("f", ⟨"f", ["p"], [.assign (.load "p") (.value ⟨4, false⟩)]⟩)], []⟩ "f"
        [.value ⟨3, false⟩] stW 10).2.heap 3 = stW.heap 3 ∧
    (call ⟨[("f", ⟨"f", ["p"], [.assign (.load "p") (.value ⟨4, false⟩)]⟩)], []⟩ "f"
        [.value ⟨3, false⟩] stW 10).2.events =
      stW.events ++ [Event.assign 5 4, Event.free 5] :=
  ⟨(params_bound_by_copy "f" "p" ⟨3, false⟩ ⟨4, false⟩ stW rfl (by decide)).1,
   (params_bound_by_copy "f" "p" ⟨3, false⟩ ⟨4, false⟩ stW rfl (by decide)).2.1,
   (params_bound_by_copy "f" "p" ⟨3, false⟩ ⟨4, false⟩ stW rfl (by decide)).2.2.1⟩

end Free
